import Mathlib

/-!
Verification development for the `youtube-search` repository.

Part 1 embeds the relay (CORS proxy) server `src/proxy-server.js` as pure
Lean functions: a request is abstracted by its method, parsed pathname,
`url` query parameter and body; the network is an oracle mapping a target
URL and a body to an upstream outcome. The handler returns the response
it writes together with the upstream call it performed (if any).

Part 2 models the search core (Transport / Result Parser / Cache Store /
Search Orchestrator), whose implementation files are not part of the
visible sources; those definitions are modelled from the specification.
-/

namespace YtSearch

/-- Allow-listed upstream hosts, from `ALLOWED_HOSTS` in `src/proxy-server.js`. -/
def ALLOWED_HOSTS : List String := ["www.youtube.com", "youtube.com", "youtubei.googleapis.com"]

/-- Predicate `charsStartsWith s pat`: `pat` is a prefix of `s`
(character-list version of string prefix testing). -/
def charsStartsWith : List Char → List Char → Bool
  | _, [] => true
  | [], _ :: _ => false
  | c :: cs, p :: ps => c = p && charsStartsWith cs ps

/-- Splits at the first occurrence of `pat`: `breakOnSub pat s = some (b, a)`
when `s = b ++ pat ++ a` with `b` shortest; `none` when `pat` does not occur. -/
def breakOnSub (pat : List Char) : List Char → Option (List Char × List Char)
  | [] => if pat = [] then some ([], []) else none
  | c :: cs =>
    if charsStartsWith (c :: cs) pat then some ([], (c :: cs).drop pat.length)
    else
      match breakOnSub pat cs with
      | some (b, a) => some (c :: b, a)
      | none => none

/-- Models JavaScript `String.prototype.includes`: `s` contains `pat` as a
contiguous substring. -/
def jsIncludes (s pat : String) : Bool :=
  (breakOnSub pat.data s.data).isSome

/-- Models element `[1]` of JavaScript `s.split(pat)`: the segment strictly
between the first and the second occurrence of `pat` (up to the end of `s`
when `pat` occurs only once); `none` when `pat` does not occur at all. -/
def jsSplitSecond (s pat : String) : Option String :=
  match breakOnSub pat.data s.data with
  | none => none
  | some (_, rest) =>
    match breakOnSub pat.data rest with
    | none => some (String.mk rest)
    | some (b, _) => some (String.mk b)

/-- The part of an authority after the last `@` (WHATWG strips user info up
to the last `@`); the authority itself when it has no `@`. -/
def afterLastAt (authority : List Char) : List Char :=
  if authority.contains '@' then
    (authority.reverse.takeWhile (fun c => ¬ c = '@')).reverse
  else authority

/-- Models `new URL(u).hostname` for `http:`/`https:` URLs (the only schemes
the relay ever forwards): the authority is the segment between the scheme
separator and the first `/`, `?` or `#`; user info before the last `@` and a
port after `:` are stripped. Returns `none` when the constructor would throw
(no `http`/`https` scheme or an empty host). -/
def urlHostname (u : String) : Option String :=
  let cs := u.data
  let host (rest : List Char) : Option String :=
    let authority := rest.takeWhile (fun c => ¬ (c = '/' ∨ c = '?' ∨ c = '#'))
    let h := (afterLastAt authority).takeWhile (fun c => ¬ c = ':')
    if h = [] then none else some (String.mk h)
  if charsStartsWith cs ("https://".data) then host (cs.drop 8)
  else if charsStartsWith cs ("http://".data) then host (cs.drop 7)
  else none

/-- Embeds `isAllowedUrl` from `src/proxy-server.js`: parse the target URL
and test `ALLOWED_HOSTS.some((host) => parsedUrl.hostname.includes(host))`;
a parse failure yields `false`. Note the source uses substring containment
(`includes`), not equality with an allow-listed host. -/
def isAllowedUrl (targetUrl : String) : Bool :=
  match urlHostname targetUrl with
  | none => false
  | some hostname => ALLOWED_HOSTS.any (fun host => jsIncludes hostname host)

/-- Value of one hexadecimal digit, used by the percent-decoder. -/
def hexDigitVal (c : Char) : Option Nat :=
  if '0' ≤ c ∧ c ≤ '9' then some (c.toNat - '0'.toNat)
  else if 'a' ≤ c ∧ c ≤ 'f' then some (c.toNat - 'a'.toNat + 10)
  else if 'A' ≤ c ∧ c ≤ 'F' then some (c.toNat - 'A'.toNat + 10)
  else none

/-- Percent-decoding over a character list: `%XY` with two hex digits becomes
the character of code `16*X + Y`; anything else is kept as-is. -/
def percentDecodeChars : List Char → List Char
  | [] => []
  | '%' :: h :: l :: rest =>
    match hexDigitVal h, hexDigitVal l with
    | some hi, some lo => Char.ofNat (16 * hi + lo) :: percentDecodeChars rest
    | _, _ => '%' :: percentDecodeChars (h :: l :: rest)
  | c :: rest => c :: percentDecodeChars rest

/-- Models `decodeURIComponent` for single-byte escapes (in the relay handler
it is only ever applied to the empty string, since splitting `/proxy`,
`/proxy/` or the empty pathname on `/proxy/` has no second component). -/
def decodeURIComponent (s : String) : String :=
  String.mk (percentDecodeChars s.data)

/-- Outcome of the upstream POST performed by `fetchUrl`: either the upstream
response (status code and accumulated body) or a network-level error. -/
inductive UpstreamOutcome where
  | success (statusCode : Nat) (body : String)
  | failure (message : String)
  deriving Repr, DecidableEq

/-- The network as an oracle: target URL and forwarded body to outcome. -/
def Net : Type := String → String → UpstreamOutcome

/-- An incoming relay request, abstracted by the fields the handler reads:
the HTTP method, the parsed pathname, the `url` query parameter
(`none` when absent) and the request body. -/
structure Request where
  method : String
  pathname : String
  queryUrl : Option String
  body : String
  deriving Repr, DecidableEq

/-- The response the relay writes: status, headers (after merging the
`setHeader` baseline with the `writeHead` headers) and body. -/
structure Response where
  status : Nat
  headers : List (String × String)
  body : String
  deriving Repr, DecidableEq

/-- CORS headers installed by `res.setHeader` at the top of the handler,
present on every response the relay sends. -/
def baseHeaders : List (String × String) :=
  [("Access-Control-Allow-Origin", "*"),
   ("Access-Control-Allow-Methods", "GET, POST, OPTIONS"),
   ("Access-Control-Allow-Headers", "Content-Type")]

/-- What the handler did: the response written, plus the upstream call
(target URL and forwarded body) when one was made. -/
structure HandlerResult where
  response : Response
  upstreamCall : Option (String × String)
  deriving Repr, DecidableEq

/-- Models `targetUrl = query.url || decodeURIComponent(pathname.split('/proxy/')[1] || '')`:
JavaScript `||` falls through on `undefined` and on the empty string. -/
def targetUrlOf (pathname : String) (queryUrl : Option String) : String :=
  let fallback := decodeURIComponent ((jsSplitSecond pathname "/proxy/").getD "")
  match queryUrl with
  | some s => if s = "" then fallback else s
  | none => fallback

/-- Embeds the request handler of `http.createServer` in `src/proxy-server.js`:
OPTIONS preflight is answered 200 with an empty body; the proxy endpoint
(pathname exactly `/proxy`, `/proxy/` or empty) answers 400 on a missing
target, 403 on a disallowed target, forwards via `fetchUrl` otherwise and
relays the upstream status and body (500 on a network error); every other
pathname answers 404. -/
def handleRequest (net : Net) (req : Request) : HandlerResult :=
  if req.method = "OPTIONS" then
    { response := { status := 200, headers := baseHeaders, body := "" },
      upstreamCall := none }
  else if req.pathname = "/proxy" ∨ req.pathname = "/proxy/" ∨ req.pathname = "" then
    let targetUrl := targetUrlOf req.pathname req.queryUrl
    if targetUrl = "" then
      { response := { status := 400,
                      headers := baseHeaders ++ [("Content-Type", "application/json")],
                      body := "\x7b\"error\":\"Missing url parameter\"\x7d" },
        upstreamCall := none }
    else if ¬ isAllowedUrl targetUrl then
      { response := { status := 403,
                      headers := baseHeaders ++ [("Content-Type", "application/json")],
                      body := "\x7b\"error\":\"URL not allowed\"\x7d" },
        upstreamCall := none }
    else
      match net targetUrl req.body with
      | .failure msg =>
        { response := { status := 500,
                        headers := baseHeaders ++ [("Content-Type", "application/json")],
                        body := "\x7b\"error\":\"" ++ msg ++ "\"\x7d" },
          upstreamCall := some (targetUrl, req.body) }
      | .success statusCode upstreamBody =>
        { response := { status := statusCode,
                        headers := baseHeaders ++
                          [("Content-Type", "application/json"),
                           ("Access-Control-Allow-Origin", "*")],
                        body := upstreamBody },
          upstreamCall := some (targetUrl, req.body) }
  else
    { response := { status := 404,
                    headers := baseHeaders ++ [("Content-Type", "application/json")],
                    body := "\x7b\"error\":\"Not found\"\x7d" },
      upstreamCall := none }

/-! ## Search core, modelled from the spec

The Transport / Result Parser / Cache Store / Search Orchestrator sources
are not among the visible files (only their tests and callers are), so the
definitions below are modelled from the specification (§3, §4.2, §4.3,
§4.4). -/

/-- Modelled from the spec: the `type` member of a `SearchQuery`,
`enum\x7bvideo, channel, playlist, all\x7d`. -/
inductive QueryType where
  | video | channel | playlist | all
  deriving DecidableEq, Repr

/-- Modelled from the spec: the variant of a `SearchResult`
(`\x7bvideo, channel, playlist\x7d`). -/
inductive ResultType where
  | video | channel | playlist
  deriving DecidableEq, Repr

/-- Modelled from the spec: a `SearchResult` with common fields
`id`, `title`, `link`, `thumbnail` and the variant-specific optional fields
(`author` for videos, `subscriberCount` for channels, `videoCount` for
playlists). -/
structure SearchResult where
  type : ResultType
  id : String
  title : String
  link : String
  thumbnail : Option String := none
  author : Option String := none
  subscriberCount : Option String := none
  videoCount : Option Nat := none
  deriving DecidableEq, Repr

/-- Modelled from the spec: a `RendererNode` of the upstream response tree —
a closed set of node kinds: container (holding further nodes in document
order), the three known leaf renderers with their §3 fields (possibly
missing, hence `Option`/empty strings), and unrecognized leaf shapes. -/
inductive RendererNode where
  | container (children : List RendererNode)
  | videoLeaf (id title link : String) (thumbnail author : Option String)
  | channelLeaf (id title link : String) (thumbnail subscriberCount : Option String)
  | playlistLeaf (id title link : String) (thumbnail : Option String) (videoCount : Option Nat)
  | unknownLeaf
  deriving Repr

/-- Modelled from the spec: whether a leaf variant matches the requested
`type` filter (`all` matches every known variant). -/
def typeMatches (qt : QueryType) (rt : ResultType) : Bool :=
  match qt, rt with
  | .all, _ => true
  | .video, .video => true
  | .channel, .channel => true
  | .playlist, .playlist => true
  | _, _ => false

mutual
/-- Modelled from the spec (§4.2): order-preserving depth-first traversal of
the renderer tree. A known leaf matching the type filter is emitted with its
fields when `id`, `title` and `link` are all non-empty, and dropped silently
otherwise; containers recurse into their children in order and emit nothing
for themselves; unrecognized variants are skipped without error. -/
def collectResults (qt : QueryType) : RendererNode → List SearchResult
  | .container children => collectList qt children
  | .videoLeaf id title link thumbnail author =>
    if typeMatches qt .video ∧ id ≠ "" ∧ title ≠ "" ∧ link ≠ "" then
      [{ type := .video, id, title, link, thumbnail, author }]
    else []
  | .channelLeaf id title link thumbnail subscriberCount =>
    if typeMatches qt .channel ∧ id ≠ "" ∧ title ≠ "" ∧ link ≠ "" then
      [{ type := .channel, id, title, link, thumbnail, subscriberCount }]
    else []
  | .playlistLeaf id title link thumbnail videoCount =>
    if typeMatches qt .playlist ∧ id ≠ "" ∧ title ≠ "" ∧ link ≠ "" then
      [{ type := .playlist, id, title, link, thumbnail, videoCount }]
    else []
  | .unknownLeaf => []

/-- Depth-first traversal of a list of sibling nodes, in document order. -/
def collectList (qt : QueryType) : List RendererNode → List SearchResult
  | [] => []
  | n :: rest => collectResults qt n ++ collectList qt rest
end

/-- Deduplication worker: drops a result whose `id` was already seen, keeps
the first occurrence otherwise. -/
def dedupByIdAux (seen : List String) : List SearchResult → List SearchResult
  | [] => []
  | r :: rs =>
    if r.id ∈ seen then dedupByIdAux seen rs
    else r :: dedupByIdAux (r.id :: seen) rs

/-- Modelled from the spec (§4.2): deduplicate by `id`, keeping the first
occurrence in traversal order. -/
def dedupById (l : List SearchResult) : List SearchResult :=
  dedupByIdAux [] l

/-- Modelled from the spec (§4.2): `parse(rawResponse, query)` — depth-first
collection of matching well-formed leaves, then deduplication by `id`, then
truncation to the query's limit (strictly after filtering and dedup). -/
def parse (raw : RendererNode) (qt : QueryType) (limit : Nat) : List SearchResult :=
  (dedupById (collectResults qt raw)).take limit

/-- Modelled from the spec (§3): a `CacheEntry`
`\x7bresults, insertedAt, expiresAt\x7d`. -/
structure CacheEntry where
  results : List SearchResult
  insertedAt : Nat
  expiresAt : Nat
  deriving DecidableEq, Repr

/-- Modelled from the spec (§3, §4.3): the Cache Store — resident entries as
an association list in most-recently-used-first order (the in-memory index
is its key sequence), mirrored after every mutating operation to a
persistent backing (namespaced entry values plus one persisted index
value). -/
structure CacheStore where
  maxEntries : Nat
  items : List (String × CacheEntry)
  backing : List (String × CacheEntry)
  backingIndex : List String
  deriving DecidableEq, Repr

/-- Modelled from the spec (§6): persistence keys use a fixed namespace
prefix around the cache key. -/
def nsKey (key : String) : String :=
  "yt_search:" ++ key

/-- Mirror of the resident entries into the persistent backing. -/
def mirrorBacking (items : List (String × CacheEntry)) : List (String × CacheEntry) :=
  items.map (fun p => (nsKey p.1, p.2))

/-- Removes every binding of `key` from an association list. -/
def eraseKey (items : List (String × CacheEntry)) (key : String) : List (String × CacheEntry) :=
  items.filter (fun p => decide (p.1 ≠ key))

/-- The in-memory index: keys of the resident entries, most recent first. -/
def storeKeys (store : CacheStore) : List String :=
  store.items.map Prod.fst

/-- Association-list lookup of a resident entry. -/
def lookupEntry (store : CacheStore) (key : String) : Option CacheEntry :=
  (store.items.find? (fun p => decide (p.1 = key))).map Prod.snd

/-- Modelled from the spec (§4.3): `get(key)` at time `now` — absent when the
key is unknown or `now ≥ expiresAt` (an expired entry found during lookup is
evicted eagerly from the index, the entries and the persistent backing); a
successful `get` promotes the key to most-recently-used. Returns the looked
up entry (or `none`) together with the updated store. -/
def cacheGet (store : CacheStore) (key : String) (now : Nat) :
    Option CacheEntry × CacheStore :=
  match lookupEntry store key with
  | none => (none, store)
  | some e =>
    if e.expiresAt ≤ now then
      let items := eraseKey store.items key
      (none, { store with items, backing := mirrorBacking items,
                          backingIndex := items.map Prod.fst })
    else
      let items := (key, e) :: eraseKey store.items key
      (some e, { store with items, backing := mirrorBacking items,
                            backingIndex := items.map Prod.fst })

/-- Modelled from the spec (§4.3): `put(key, results, ttl)` at time `now` —
create or overwrite the entry with `insertedAt = now`,
`expiresAt = now + ttl`, mark it most-recently-used, and evict entries from
the least-recently-used end until the resident count is back at capacity;
the backing mirrors the result. -/
def cachePut (store : CacheStore) (key : String) (results : List SearchResult)
    (ttl now : Nat) : CacheStore :=
  let e : CacheEntry := { results, insertedAt := now, expiresAt := now + ttl }
  let merged := (key, e) :: eraseKey store.items key
  let kept := merged.take store.maxEntries
  { store with items := kept, backing := mirrorBacking kept,
               backingIndex := kept.map Prod.fst }

/-- Modelled from the spec (§4.3): `clear()` — removes all entries, resets
the index and leaves the backing as if never used. -/
def cacheClear (store : CacheStore) : CacheStore :=
  { store with items := [], backing := [], backingIndex := [] }

/-- One Cache Store operation, for stating invariants over sequences. -/
inductive CacheOp where
  | get (key : String) (now : Nat)
  | put (key : String) (results : List SearchResult) (ttl now : Nat)
  | clear
  deriving Repr

/-- Applies one operation to the store (the result of a `get` is discarded,
only its state effect is kept). -/
def applyOp (store : CacheStore) : CacheOp → CacheStore
  | .get key now => (cacheGet store key now).2
  | .put key results ttl now => cachePut store key results ttl now
  | .clear => cacheClear store

/-- Applies a sequence of operations in order. -/
def applyOps (store : CacheStore) (ops : List CacheOp) : CacheStore :=
  ops.foldl applyOp store

/-- Modelled from the spec (§7): error kinds of the search pipeline. -/
inductive ErrorKind where
  | invalidArgument | network | relayRejected | malformedBody
  deriving DecidableEq, Repr

/-- Modelled from the spec (§3): the options of a `SearchQuery`; `limit` is
an integer so that the “positive integer” validation is observable. -/
structure SearchOptions where
  type : QueryType
  limit : Int
  deriving DecidableEq, Repr

/-- Key segment naming the query type. -/
def typeKeyString : QueryType → String
  | .video => "video"
  | .channel => "channel"
  | .playlist => "playlist"
  | .all => "all"

/-- Modelled from the spec (§3): the cache key is a deterministic exact
string composition of `(text, type, limit)`. -/
def cacheKey (text : String) (opts : SearchOptions) : String :=
  text ++ "|" ++ typeKeyString opts.type ++ "|" ++ toString opts.limit

/-- Outcome of one `search` call: the typed result or failure, how many
relay (transport) calls were made, whether the cache was consulted, and the
store afterwards. -/
structure SearchOutcome where
  result : Except ErrorKind (List SearchResult)
  relayCalls : Nat
  cacheAccessed : Bool
  store : CacheStore
  deriving Repr

/-- Modelled from the spec (§4.4): the Search Orchestrator. Validates that
`text` is non-empty and `limit` a positive integer (failing fast with
`invalid-argument` before touching cache or transport); computes the cache
key; on cache enabled + hit returns the cached results with no relay call;
on miss (or caching disabled) consults the transport (`transportResp` is the
raw response or typed failure the relay round-trip produced), parses, and —
only when caching is enabled and transport succeeded — writes the parsed
results into the store before returning them. -/
def search (text : String) (opts : SearchOptions) (useCache : Bool)
    (store : CacheStore) (now ttl : Nat)
    (transportResp : Except ErrorKind RendererNode) : SearchOutcome :=
  if text = "" ∨ opts.limit ≤ 0 then
    { result := .error .invalidArgument, relayCalls := 0, cacheAccessed := false, store }
  else
    let key := cacheKey text opts
    let lim := opts.limit.toNat
    if useCache then
      match cacheGet store key now with
      | (some e, store') =>
        { result := .ok e.results, relayCalls := 0, cacheAccessed := true, store := store' }
      | (none, store') =>
        match transportResp with
        | .error k =>
          { result := .error k, relayCalls := 1, cacheAccessed := true, store := store' }
        | .ok raw =>
          let rs := parse raw opts.type lim
          { result := .ok rs, relayCalls := 1, cacheAccessed := true,
            store := cachePut store' key rs ttl now }
    else
      match transportResp with
      | .error k =>
        { result := .error k, relayCalls := 1, cacheAccessed := false, store }
      | .ok raw =>
        { result := .ok (parse raw opts.type lim), relayCalls := 1,
          cacheAccessed := false, store }

/-! ## Auxiliary predicates and concrete fixtures -/

/-- Predicate `FirstOcc r l`: `r` occurs in `l` and is the first element
of `l` bearing its `id` (everything before it has a different `id`). -/
def FirstOcc (r : SearchResult) (l : List SearchResult) : Prop :=
  ∃ l1 l2, l = l1 ++ r :: l2 ∧ ∀ x ∈ l1, x.id ≠ r.id

/-- A network oracle whose upstream always answers 200 `ok`. -/
def okNet : Net := fun _ _ => .success 200 "ok"

/-- A network oracle that always fails at the network level. -/
def failNet : Net := fun _ _ => .failure "ECONNREFUSED"

/-- A proxied search request naming an allow-listed upstream target. -/
def sampleReq : Request :=
  { method := "POST", pathname := "/proxy",
    queryUrl := some "https://www.youtube.com/youtubei/v1/search",
    body := "\x7b\"query\":\"lofi\"\x7d" }

/-- A request whose target hostname merely contains an allow-listed host as
a substring without being one. -/
def attackReq : Request :=
  { method := "POST", pathname := "/proxy",
    queryUrl := some "https://youtube.com.evil.example/steal",
    body := "\x7b\x7d" }

/-- A request embedding the target URL in the path instead of the query. -/
def pathReq : Request :=
  { method := "POST",
    pathname := "/proxy/https%3A%2F%2Fwww.youtube.com%2Fyoutubei%2Fv1%2Fsearch",
    queryUrl := none, body := "" }

/-- A CORS preflight request. -/
def optionsReq : Request :=
  { method := "OPTIONS", pathname := "/proxy", queryUrl := none, body := "" }

/-- A small upstream tree: a container holding a well-formed video leaf, an
unrecognized leaf, a duplicate of the video under another shelf, and a
channel leaf. -/
def sampleTree : RendererNode :=
  .container
    [.videoLeaf "abc123" "Test Video" "https://platform/watch?v=abc123" none (some "Author"),
     .unknownLeaf,
     .container
       [.videoLeaf "abc123" "Test Video (repeat)" "https://platform/watch?v=abc123" none none,
        .channelLeaf "chan9" "A Channel" "https://platform/@chan9" none (some "1M")]]

/-- A fresh two-entry-capacity store. -/
def emptyStore : CacheStore :=
  { maxEntries := 2, items := [], backing := [], backingIndex := [] }

/-- An entry expiring at time 10. -/
def entry0 : CacheEntry :=
  { results := [], insertedAt := 0, expiresAt := 10 }

/-- A store holding `entry0` under key `k`, mirrored to the backing. -/
def expiredStore : CacheStore :=
  { maxEntries := 2, items := [("k", entry0)],
    backing := [(nsKey "k", entry0)], backingIndex := ["k"] }

/-- A sequence of store operations exercising eviction, lookup and clear. -/
def opsSeq : List CacheOp :=
  [.put "a" [] 10 0, .put "b" [] 10 1, .put "c" [] 10 2, .get "b" 3, .clear,
   .put "d" [] 10 4]

/-! ## Helper lemmas -/

mutual
/-- Every result the traversal emits has non-empty `id`, `title`, `link`. -/
theorem collectResults_fields (qt : QueryType) (n : RendererNode) :
    ∀ r ∈ collectResults qt n, r.id ≠ "" ∧ r.title ≠ "" ∧ r.link ≠ "" := by
  cases n with
  | container children =>
    simpa [collectResults] using collectList_fields qt children
  | videoLeaf id title link thumbnail author =>
    intro r hr
    simp only [collectResults] at hr
    split at hr
    · rename_i h
      simp only [List.mem_singleton] at hr
      subst hr
      exact ⟨h.2.1, h.2.2.1, h.2.2.2⟩
    · simp at hr
  | channelLeaf id title link thumbnail subscriberCount =>
    intro r hr
    simp only [collectResults] at hr
    split at hr
    · rename_i h
      simp only [List.mem_singleton] at hr
      subst hr
      exact ⟨h.2.1, h.2.2.1, h.2.2.2⟩
    · simp at hr
  | playlistLeaf id title link thumbnail videoCount =>
    intro r hr
    simp only [collectResults] at hr
    split at hr
    · rename_i h
      simp only [List.mem_singleton] at hr
      subst hr
      exact ⟨h.2.1, h.2.2.1, h.2.2.2⟩
    · simp at hr
  | unknownLeaf =>
    intro r hr
    simp [collectResults] at hr

/-- List version of `collectResults_fields`. -/
theorem collectList_fields (qt : QueryType) (ns : List RendererNode) :
    ∀ r ∈ collectList qt ns, r.id ≠ "" ∧ r.title ≠ "" ∧ r.link ≠ "" := by
  cases ns with
  | nil => intro r hr; simp [collectList] at hr
  | cons n rest =>
    intro r hr
    simp only [collectList, List.mem_append] at hr
    rcases hr with h | h
    · exact collectResults_fields qt n r h
    · exact collectList_fields qt rest r h
end

/-- The ids of the deduplicated list are nodup, and every survivor's id was
not previously seen and is the first occurrence of that id in the input. -/
theorem dedupByIdAux_spec (l : List SearchResult) : ∀ (seen : List String),
    ((dedupByIdAux seen l).map SearchResult.id).Nodup
    ∧ ∀ r ∈ dedupByIdAux seen l, r.id ∉ seen ∧ FirstOcc r l := by
  induction l with
  | nil => intro seen; simp [dedupByIdAux]
  | cons a rs ih =>
    intro seen
    by_cases h : a.id ∈ seen
    · simp only [dedupByIdAux, if_pos h]
      obtain ⟨ihN, ihP⟩ := ih seen
      refine ⟨ihN, ?_⟩
      intro r hr
      obtain ⟨hns, l1, l2, heq, hfirst⟩ := ihP r hr
      refine ⟨hns, a :: l1, l2, by rw [heq]; rfl, ?_⟩
      intro x hx
      rcases List.mem_cons.1 hx with rfl | hx'
      · exact fun hxa => hns (hxa ▸ h)
      · exact hfirst x hx'
    · simp only [dedupByIdAux, if_neg h]
      obtain ⟨ihN, ihP⟩ := ih (a.id :: seen)
      constructor
      · simp only [List.map_cons, List.nodup_cons]
        refine ⟨?_, ihN⟩
        intro hmem
        obtain ⟨r, hr, hrid⟩ := List.mem_map.1 hmem
        exact (ihP r hr).1 (by rw [hrid]; exact List.mem_cons_self _ _)
      · intro r hr
        rcases List.mem_cons.1 hr with rfl | hr'
        · exact ⟨h, [], rs, rfl, by intro x hx; cases hx⟩
        · obtain ⟨hns, l1, l2, heq, hfirst⟩ := (ihP r hr')
          have hseen : r.id ∉ seen := fun hs => hns (List.mem_cons_of_mem _ hs)
          have hne : r.id ≠ a.id := fun he => hns (he ▸ List.mem_cons_self _ _)
          refine ⟨hseen, a :: l1, l2, by rw [heq]; rfl, ?_⟩
          intro x hx
          rcases List.mem_cons.1 hx with rfl | hx'
          · exact fun hxa => hne hxa.symm
          · exact hfirst x hx'

/-- Ids after deduplication are pairwise distinct. -/
theorem dedupById_nodup (l : List SearchResult) :
    ((dedupById l).map SearchResult.id).Nodup :=
  (dedupByIdAux_spec l []).1

/-- Every survivor of deduplication is the first occurrence of its id. -/
theorem dedupById_firstOcc (l : List SearchResult) :
    ∀ r ∈ dedupById l, FirstOcc r l :=
  fun r hr => ((dedupByIdAux_spec l []).2 r hr).2

/-- Deduplication only keeps elements of the input. -/
theorem dedupById_subset (l : List SearchResult) :
    ∀ r ∈ dedupById l, r ∈ l := by
  intro r hr
  obtain ⟨l1, l2, heq, _⟩ := dedupById_firstOcc l r hr
  rw [heq]
  exact List.mem_append_right l1 (List.mem_cons_self r l2)

/-- The parsed list is a truncation of the deduplicated collection. -/
theorem parse_eq (raw : RendererNode) (qt : QueryType) (limit : Nat) :
    parse raw qt limit = (dedupById (collectResults qt raw)).take limit := rfl

/-- The parsed list never exceeds the limit. -/
theorem parse_length_le (raw : RendererNode) (qt : QueryType) (limit : Nat) :
    (parse raw qt limit).length ≤ limit :=
  (dedupById (collectResults qt raw)).length_take_le limit

/-- Every parsed result has non-empty required fields. -/
theorem parse_fields (raw : RendererNode) (qt : QueryType) (limit : Nat) :
    ∀ r ∈ parse raw qt limit, r.id ≠ "" ∧ r.title ≠ "" ∧ r.link ≠ "" := by
  intro r hr
  have h1 : r ∈ dedupById (collectResults qt raw) :=
    List.take_subset limit _ hr
  exact collectResults_fields qt raw r (dedupById_subset _ r h1)

/-- Ids of the parsed list are pairwise distinct. -/
theorem parse_nodup (raw : RendererNode) (qt : QueryType) (limit : Nat) :
    ((parse raw qt limit).map SearchResult.id).Nodup :=
  ((List.take_sublist limit _).map SearchResult.id).nodup (dedupById_nodup _)

/-- Erasing a key never lengthens the item list. -/
theorem eraseKey_length_le (items : List (String × CacheEntry)) (key : String) :
    (eraseKey items key).length ≤ items.length :=
  List.length_filter_le _ items

/-- Erasing a key that is resident strictly shortens the item list. -/
theorem eraseKey_length_lt (store : CacheStore) (key : String) (e : CacheEntry)
    (h : lookupEntry store key = some e) :
    (eraseKey store.items key).length < store.items.length := by
  unfold lookupEntry at h
  rcases hf : store.items.find? (fun p => decide (p.1 = key)) with _ | p
  · rw [hf] at h; cases h
  · have hmem := List.mem_of_find?_eq_some hf
    have hp := List.find?_some hf
    refine List.length_filter_lt_length_iff_exists.2 ⟨p, hmem, ?_⟩
    simp only [decide_eq_true_eq] at hp ⊢
    simp [hp]

/-- The erased key is gone from the keys of the erased list. -/
theorem eraseKey_not_mem (items : List (String × CacheEntry)) (key : String) :
    key ∉ (eraseKey items key).map Prod.fst := by
  intro h
  obtain ⟨p, hp, hk⟩ := List.mem_map.1 h
  have := (List.mem_filter.1 hp).2
  simp only [decide_eq_true_eq] at this
  exact this hk

/-- Looking up an erased key in the erased list fails. -/
theorem find?_eraseKey (items : List (String × CacheEntry)) (key : String) :
    (eraseKey items key).find? (fun p => decide (p.1 = key)) = none := by
  rw [List.find?_eq_none]
  intro p hp
  have := (List.mem_filter.1 hp).2
  simpa using this

/-- The namespacing of persistence keys is injective. -/
theorem nsKey_inj {a b : String} (h : nsKey a = nsKey b) : a = b := by
  unfold nsKey at h
  have hd := congrArg String.data h
  simp only [String.data_append] at hd
  have := List.append_cancel_left hd
  cases a; cases b
  exact congrArg String.mk this

/-- No operation changes the configured maximum. -/
theorem applyOp_maxEntries (store : CacheStore) (op : CacheOp) :
    (applyOp store op).maxEntries = store.maxEntries := by
  cases op with
  | get key now =>
    rcases hl : lookupEntry store key with _ | e
    · simp [applyOp, cacheGet, hl]
    · by_cases he : e.expiresAt ≤ now <;> simp [applyOp, cacheGet, hl, he]
  | put key results ttl now => rfl
  | clear => rfl

/-- One operation keeps the resident count within capacity. -/
theorem applyOp_count (store : CacheStore) (op : CacheOp)
    (h : store.items.length ≤ store.maxEntries) :
    (applyOp store op).items.length ≤ (applyOp store op).maxEntries := by
  rw [applyOp_maxEntries]
  cases op with
  | get key now =>
    rcases hl : lookupEntry store key with _ | e
    · simpa [applyOp, cacheGet, hl] using h
    · by_cases he : e.expiresAt ≤ now
      · have := eraseKey_length_le store.items key
        simp [applyOp, cacheGet, hl, he]
        omega
      · have := eraseKey_length_lt store key e hl
        simp [applyOp, cacheGet, hl, he]
        omega
  | put key results ttl now =>
    simpa only [applyOp, cachePut] using
      ((key, ({ results, insertedAt := now, expiresAt := now + ttl } : CacheEntry)) ::
        eraseKey store.items key).length_take_le store.maxEntries
  | clear =>
    simp [applyOp, cacheClear]

/-- A sequence of operations keeps the resident count within capacity. -/
theorem applyOps_count (ops : List CacheOp) : ∀ (init : CacheStore),
    init.items.length ≤ init.maxEntries →
    (applyOps init ops).items.length ≤ (applyOps init ops).maxEntries := by
  induction ops with
  | nil => intro init h; simpa [applyOps] using h
  | cons op rest ih =>
    intro init h
    have : applyOps init (op :: rest) = applyOps (applyOp init op) rest := by
      simp [applyOps]
    rw [this]
    exact ih (applyOp init op) (applyOp_count init op h)

/-- On the fetch path (caching disabled or a cache miss), a successful
search returns exactly the parse of the raw response. -/
theorem search_miss_result (text : String) (opts : SearchOptions) (useCache : Bool)
    (store : CacheStore) (now ttl : Nat) (raw : RendererNode)
    (hv : ¬ (text = "" ∨ opts.limit ≤ 0))
    (hmiss : useCache = false ∨ (cacheGet store (cacheKey text opts) now).1 = none) :
    (search text opts useCache store now ttl (.ok raw)).result =
      .ok (parse raw opts.type opts.limit.toNat) := by
  unfold search
  rw [if_neg hv]
  rcases hmiss with h | h
  · subst h; simp
  · cases useCache with
    | false => simp
    | true =>
      rcases hcg : cacheGet store (cacheKey text opts) now with ⟨r1, st⟩
      rw [hcg] at h
      simp only at h
      subst h
      simp [hcg]

/-! ## Claim theorems -/

/-- Claim C1 (the code evaluated at the failing input): the relay's
allow-list check uses substring containment, so the target
`https://youtube.com.evil.example/steal` — whose hostname
`youtube.com.evil.example` is not an allow-listed host — passes
`isAllowedUrl` and is forwarded upstream instead of being answered 403. -/
theorem relay_allowlist_bypass :
    urlHostname "https://youtube.com.evil.example/steal" = some "youtube.com.evil.example"
    ∧ "youtube.com.evil.example" ∉ ALLOWED_HOSTS
    ∧ isAllowedUrl "https://youtube.com.evil.example/steal" = true
    ∧ (handleRequest okNet attackReq).upstreamCall =
        some ("https://youtube.com.evil.example/steal", "\x7b\x7d")
    ∧ (handleRequest okNet attackReq).response.status = 200 := by
  decide

/-- Claim C2: on the proxy endpoint, a missing target URL is answered 400
with no upstream call; an allow-listed target receives the client's body
and the relay answers with the upstream's status code and body verbatim;
a network failure of the upstream request is answered 500. -/
theorem relay_forward_contract (net : Net) (req : Request)
    (hm : req.method ≠ "OPTIONS")
    (hp : req.pathname = "/proxy" ∨ req.pathname = "/proxy/" ∨ req.pathname = "") :
    (targetUrlOf req.pathname req.queryUrl = "" →
        (handleRequest net req).response.status = 400
        ∧ (handleRequest net req).upstreamCall = none)
    ∧ (∀ t, targetUrlOf req.pathname req.queryUrl = t → t ≠ "" →
        isAllowedUrl t = true →
        (handleRequest net req).upstreamCall = some (t, req.body)
        ∧ (∀ st b, net t req.body = .success st b →
            (handleRequest net req).response.status = st
            ∧ (handleRequest net req).response.body = b)
        ∧ (∀ msg, net t req.body = .failure msg →
            (handleRequest net req).response.status = 500)) := by
  unfold handleRequest
  rw [if_neg hm, if_pos hp]
  constructor
  · intro h0
    simp [h0]
  · intro t ht hne hallow
    simp only [ht]
    rw [if_neg hne]
    simp only [hallow, not_true_eq_false, if_false]
    cases hnet : net t req.body with
    | success st b =>
      refine ⟨rfl, ?_, ?_⟩
      · intro st' b' h
        injection h with h1 h2
        subst h1; subst h2
        exact ⟨rfl, rfl⟩
      · intro msg h
        cases h
    | failure msg =>
      refine ⟨rfl, ?_, ?_⟩
      · intro st' b' h
        cases h
      · intro msg' _
        rfl

/-- Instance of claim C2 at a concrete allow-listed request: the body is
forwarded, a 200/`ok` upstream answer is relayed verbatim, and a network
failure is answered 500. -/
theorem relay_forward_contract_witness :
    (handleRequest okNet sampleReq).upstreamCall =
      some ("https://www.youtube.com/youtubei/v1/search", sampleReq.body)
    ∧ (handleRequest okNet sampleReq).response.status = 200
    ∧ (handleRequest okNet sampleReq).response.body = "ok"
    ∧ (handleRequest failNet sampleReq).response.status = 500 := by
  have h1 := (relay_forward_contract okNet sampleReq (by decide) (by decide)).2
      "https://www.youtube.com/youtubei/v1/search" (by decide) (by decide) (by decide)
  have h2 := (relay_forward_contract failNet sampleReq (by decide) (by decide)).2
      "https://www.youtube.com/youtubei/v1/search" (by decide) (by decide) (by decide)
  exact ⟨h1.1, (h1.2.1 200 "ok" rfl).1, (h1.2.1 200 "ok" rfl).2,
         h2.2.2 "ECONNREFUSED" rfl⟩

/-- Claim C8: every response the relay sends — OPTIONS preflight, 400, 403,
404, 500 and forwarded upstream responses — carries the header
`Access-Control-Allow-Origin: *`. -/
theorem relay_cors_always (net : Net) (req : Request) :
    ("Access-Control-Allow-Origin", "*") ∈ (handleRequest net req).response.headers := by
  unfold handleRequest
  by_cases h1 : req.method = "OPTIONS"
  · simp [h1, baseHeaders]
  · rw [if_neg h1]
    by_cases h2 : req.pathname = "/proxy" ∨ req.pathname = "/proxy/" ∨ req.pathname = ""
    · rw [if_pos h2]
      by_cases h3 : targetUrlOf req.pathname req.queryUrl = ""
      · simp [h3, baseHeaders]
      · cases hA : isAllowedUrl (targetUrlOf req.pathname req.queryUrl) with
        | false => simp [h3, hA, baseHeaders]
        | true =>
          cases hnet : net (targetUrlOf req.pathname req.queryUrl) req.body with
          | success st b => simp [h3, hA, hnet, baseHeaders]
          | failure msg => simp [h3, hA, hnet, baseHeaders]
    · rw [if_neg h2]
      simp [baseHeaders]

/-- Claim C9: with a non-OPTIONS method, a pathname other than exactly
`/proxy`, `/proxy/` or the empty string takes the 404 branch with no
upstream call; and on a matched pathname, without a non-empty `url` query
parameter the request is answered 400 with no upstream call (the query
parameter is the only effective way to name the target). -/
theorem relay_path_dispatch (net : Net) (req : Request)
    (hm : req.method ≠ "OPTIONS") :
    (¬ (req.pathname = "/proxy" ∨ req.pathname = "/proxy/" ∨ req.pathname = "") →
        (handleRequest net req).response.status = 404
        ∧ (handleRequest net req).upstreamCall = none)
    ∧ ((req.pathname = "/proxy" ∨ req.pathname = "/proxy/" ∨ req.pathname = "") →
        (req.queryUrl = none ∨ req.queryUrl = some "") →
        (handleRequest net req).response.status = 400
        ∧ (handleRequest net req).upstreamCall = none) := by
  constructor
  · intro hpath
    unfold handleRequest
    rw [if_neg hm, if_neg hpath]
    exact ⟨rfl, rfl⟩
  · intro hpath hq
    have htu : targetUrlOf req.pathname req.queryUrl = "" := by
      rcases hpath with h | h | h <;> rcases hq with h' | h' <;> rw [h, h'] <;> decide
    unfold handleRequest
    rw [if_neg hm, if_pos hpath]
    simp [htu]

/-- Instance of claim C9: a POST embedding the target URL in the path is
answered 404 and not forwarded; a POST to `/proxy` without a `url` query
parameter is answered 400 and not forwarded. -/
theorem relay_path_dispatch_witness :
    ((handleRequest okNet pathReq).response.status = 404
      ∧ (handleRequest okNet pathReq).upstreamCall = none)
    ∧ ((handleRequest okNet
          { method := "POST", pathname := "/proxy", queryUrl := none, body := "" }).response.status = 400
      ∧ (handleRequest okNet
          { method := "POST", pathname := "/proxy", queryUrl := none, body := "" }).upstreamCall = none) := by
  constructor
  · exact (relay_path_dispatch okNet pathReq (by decide)).1 (by decide)
  · exact (relay_path_dispatch okNet
      { method := "POST", pathname := "/proxy", queryUrl := none, body := "" }
      (by decide)).2 (by decide) (Or.inl rfl)

/-- Claim C10: every OPTIONS request, whatever its path, query or body, is
answered 200 with an empty body and the baseline CORS headers, with no
upstream call. -/
theorem relay_options_ok (net : Net) (req : Request)
    (h : req.method = "OPTIONS") :
    handleRequest net req =
      { response := { status := 200, headers := baseHeaders, body := "" },
        upstreamCall := none } := by
  simp [handleRequest, h]

/-- Instance of claim C10 at a concrete preflight request. -/
theorem relay_options_ok_witness :
    handleRequest okNet optionsReq =
      { response := { status := 200, headers := baseHeaders, body := "" },
        upstreamCall := none } :=
  relay_options_ok okNet optionsReq (by decide)

/-- Claim C3: for a valid query (non-empty text, positive limit) on the
fetch path, `search` returns the parse of the raw response, which has at
most `limit` results, each with non-empty `id`, `title` and `link`, the
truncation being applied to the deduplicated filtered collection (after
filtering and dedup, never before). -/
theorem search_limit_and_fields (text : String) (opts : SearchOptions)
    (useCache : Bool) (store : CacheStore) (now ttl : Nat) (raw : RendererNode)
    (ht : text ≠ "") (hl : 0 < opts.limit)
    (hmiss : useCache = false ∨ (cacheGet store (cacheKey text opts) now).1 = none) :
    (search text opts useCache store now ttl (.ok raw)).result =
      .ok (parse raw opts.type opts.limit.toNat)
    ∧ (parse raw opts.type opts.limit.toNat).length ≤ opts.limit.toNat
    ∧ (∀ r ∈ parse raw opts.type opts.limit.toNat,
        r.id ≠ "" ∧ r.title ≠ "" ∧ r.link ≠ "")
    ∧ parse raw opts.type opts.limit.toNat =
        (dedupById (collectResults opts.type raw)).take opts.limit.toNat := by
  have hv : ¬ (text = "" ∨ opts.limit ≤ 0) := by
    push_neg
    exact ⟨ht, by omega⟩
  exact ⟨search_miss_result text opts useCache store now ttl raw hv hmiss,
         parse_length_le raw opts.type opts.limit.toNat,
         parse_fields raw opts.type opts.limit.toNat,
         parse_eq raw opts.type opts.limit.toNat⟩

/-- Instance of claim C3 at a concrete valid query and upstream tree. -/
theorem search_limit_and_fields_witness :
    (search "lofi" { type := .video, limit := 1 } false emptyStore 0 1000
        (.ok sampleTree)).result = .ok (parse sampleTree .video 1)
    ∧ (parse sampleTree .video 1).length ≤ 1
    ∧ (∀ r ∈ parse sampleTree .video 1, r.id ≠ "" ∧ r.title ≠ "" ∧ r.link ≠ "")
    ∧ parse sampleTree .video 1 = (dedupById (collectResults .video sampleTree)).take 1 :=
  search_limit_and_fields "lofi" { type := .video, limit := 1 } false emptyStore 0 1000
    sampleTree (by decide) (by decide) (Or.inl rfl)

/-- Claim C4: every parsed result list has pairwise distinct `id`s, every
survivor is the first occurrence of its `id` in traversal order, and every
result list a fetch-path `search` returns has pairwise distinct `id`s. -/
theorem parse_dedup_first (raw : RendererNode) (qt : QueryType) (limit : Nat) :
    ((parse raw qt limit).map SearchResult.id).Nodup
    ∧ (∀ r ∈ parse raw qt limit, FirstOcc r (collectResults qt raw))
    ∧ ∀ (text : String) (opts : SearchOptions) (useCache : Bool)
        (store : CacheStore) (now ttl : Nat) (rs : List SearchResult),
        text ≠ "" → 0 < opts.limit →
        (useCache = false ∨ (cacheGet store (cacheKey text opts) now).1 = none) →
        (search text opts useCache store now ttl (.ok raw)).result = .ok rs →
        (rs.map SearchResult.id).Nodup := by
  refine ⟨parse_nodup raw qt limit, ?_, ?_⟩
  · intro r hr
    exact dedupById_firstOcc _ r (List.take_subset limit _ hr)
  · intro text opts useCache store now ttl rs ht hl hmiss hres
    have hv : ¬ (text = "" ∨ opts.limit ≤ 0) := by
      push_neg
      exact ⟨ht, by omega⟩
    have heq := search_miss_result text opts useCache store now ttl raw hv hmiss
    rw [hres] at heq
    injection heq with heq'
    rw [heq']
    exact parse_nodup raw opts.type opts.limit.toNat

/-- Instance of claim C4 at a tree repeating the same video id across
sibling shelves: ids are distinct after parsing, the survivor is the first
occurrence, and the search-returned list has distinct ids. -/
theorem parse_dedup_first_witness :
    ((parse sampleTree .all 5).map SearchResult.id).Nodup
    ∧ FirstOcc
        { type := .video, id := "abc123", title := "Test Video",
          link := "https://platform/watch?v=abc123", author := some "Author" }
        (collectResults .all sampleTree)
    ∧ ((parse sampleTree .all 5).map SearchResult.id).Nodup := by
  refine ⟨(parse_dedup_first sampleTree .all 5).1, ?_, ?_⟩
  · exact (parse_dedup_first sampleTree .all 5).2.1 _ (by decide)
  · exact (parse_dedup_first sampleTree .all 5).2.2 "lofi" { type := .all, limit := 5 }
      false emptyStore 0 1000 (parse sampleTree .all 5)
      (by decide) (by decide) (Or.inl rfl) rfl

/-- Claim C5: an empty text or a non-positive limit makes `search` fail
with an `invalid-argument` error before any cache access and with no
relay call, leaving the store untouched. -/
theorem search_invalid_argument (text : String) (opts : SearchOptions)
    (useCache : Bool) (store : CacheStore) (now ttl : Nat)
    (tr : Except ErrorKind RendererNode)
    (h : text = "" ∨ opts.limit ≤ 0) :
    search text opts useCache store now ttl tr =
      { result := .error .invalidArgument, relayCalls := 0,
        cacheAccessed := false, store := store } := by
  unfold search
  rw [if_pos h]

/-- Instance of claim C5: `search("", \x7blimit: 5\x7d)` fails with
`invalid-argument`, zero relay calls and no cache access. -/
theorem search_invalid_argument_witness :
    search "" { type := .video, limit := 5 } true emptyStore 0 1000
        (.error .network) =
      { result := .error .invalidArgument, relayCalls := 0,
        cacheAccessed := false, store := emptyStore } :=
  search_invalid_argument "" { type := .video, limit := 5 } true emptyStore 0 1000
    (.error .network) (Or.inl rfl)

/-- Claim C6: a `get` at a time at or past the entry's `expiresAt` returns
absent and eagerly evicts the key: afterwards it is in neither the
in-memory index, nor the resident entries, nor the persistent backing
(entry value and persisted index alike). -/
theorem cacheGet_expired_evicts (store : CacheStore) (key : String) (now : Nat)
    (e : CacheEntry) (hfind : lookupEntry store key = some e)
    (hexp : e.expiresAt ≤ now) :
    (cacheGet store key now).1 = none
    ∧ key ∉ storeKeys (cacheGet store key now).2
    ∧ lookupEntry (cacheGet store key now).2 key = none
    ∧ nsKey key ∉ ((cacheGet store key now).2).backing.map Prod.fst
    ∧ key ∉ ((cacheGet store key now).2).backingIndex := by
  unfold cacheGet
  rw [hfind]
  dsimp only
  rw [if_pos hexp]
  refine ⟨rfl, ?_, ?_, ?_, ?_⟩
  · simpa [storeKeys] using eraseKey_not_mem store.items key
  · simp [lookupEntry, find?_eraseKey]
  · intro h
    simp only [mirrorBacking, List.map_map, List.mem_map, Function.comp] at h
    obtain ⟨p, hp, hk⟩ := h
    have h2 := (List.mem_filter.1 hp).2
    simp only [decide_eq_true_eq] at h2
    exact h2 (nsKey_inj hk)
  · simpa using eraseKey_not_mem store.items key

/-- Instance of claim C6 at a concrete store whose only entry expires at
time 10, looked up at time 10. -/
theorem cacheGet_expired_evicts_witness :
    (cacheGet expiredStore "k" 10).1 = none
    ∧ "k" ∉ storeKeys (cacheGet expiredStore "k" 10).2
    ∧ lookupEntry (cacheGet expiredStore "k" 10).2 "k" = none
    ∧ nsKey "k" ∉ ((cacheGet expiredStore "k" 10).2).backing.map Prod.fst
    ∧ "k" ∉ ((cacheGet expiredStore "k" 10).2).backingIndex :=
  cacheGet_expired_evicts expiredStore "k" 10 entry0 (by decide) (by decide)

/-- Claim C7: starting within capacity, no sequence of get/put/clear
operations ever pushes the resident count above the configured maximum;
and a `put` keeps at most `maxEntries` entries, the evicted ones being
exactly the least-recently-used suffix of the merged recency list. -/
theorem cache_capacity (init : CacheStore) (ops : List CacheOp)
    (hinit : init.items.length ≤ init.maxEntries) :
    ((applyOps init ops).items.length ≤ (applyOps init ops).maxEntries)
    ∧ ∀ (store : CacheStore) (key : String) (results : List SearchResult)
        (ttl now : Nat),
        (cachePut store key results ttl now).items.length ≤ store.maxEntries
        ∧ (cachePut store key results ttl now).items ++
            ((key, ({ results, insertedAt := now, expiresAt := now + ttl } : CacheEntry)) ::
              eraseKey store.items key).drop store.maxEntries =
            (key, ({ results, insertedAt := now, expiresAt := now + ttl } : CacheEntry)) ::
              eraseKey store.items key := by
  refine ⟨applyOps_count ops init hinit, ?_⟩
  intro store key results ttl now
  exact ⟨((key, ({ results, insertedAt := now, expiresAt := now + ttl } : CacheEntry)) ::
            eraseKey store.items key).length_take_le store.maxEntries,
         List.take_append_drop store.maxEntries _⟩

/-- Instance of claim C7: a sequence of four puts (capacity two), a get and
a clear keeps the resident count within capacity. -/
theorem cache_capacity_witness :
    (applyOps emptyStore opsSeq).items.length ≤ (applyOps emptyStore opsSeq).maxEntries :=
  (cache_capacity emptyStore opsSeq (by decide)).1

end YtSearch
